import Mathlib

/-!
Verification of the WHAIBI API tester core against its design notes.

The TypeScript sources under `src/app/api` are shallowly embedded:
JS strings are Lean strings (manipulated as `List Char` so that all
operations are kernel-computable), JS objects are association lists in
insertion order, JS numbers are rationals, and the ambient effects
(`Math.random`, `Date.now`, `fetch`, `new URL`) are explicit parameters.
-/

/-- The double-quote character. -/
def dquote : Char := Char.ofNat 34

/-- The single-quote character. -/
def squote : Char := Char.ofNat 39

/-- The backslash character. -/
def backslash : Char := Char.ofNat 92

/-- The opening-brace character. -/
def braceL : Char := Char.ofNat 123

/-- The closing-brace character. -/
def braceR : Char := Char.ofNat 125

/-- The opening-bracket character. -/
def brackL : Char := Char.ofNat 91

/-- The closing-bracket character. -/
def brackR : Char := Char.ofNat 93

/-- The caret character `^`. -/
def caretC : Char := Char.ofNat 94

/-- Whitespace in the sense of the JS regex class `\s` (ASCII part:
space, tab, line feed, vertical tab, form feed, carriage return). -/
def isJsWs (c : Char) : Bool :=
  c = ' ' || c.val = 9 || c.val = 10 || c.val = 11 || c.val = 12 || c.val = 13

/-- Word characters in the sense of the JS regex class `\w`. -/
def isWordChar (c : Char) : Bool := c.isAlphanum || c = '_'

/-- A quote character in the sense of the JS regex class `['"]`. -/
def isQuoteChar (c : Char) : Bool := c = squote || c = dquote

/-- JS line terminators (the characters the non-dotall `.` cannot match);
only the ASCII ones matter for this embedding. -/
def isLineTerm (c : Char) : Bool := c.val = 10 || c.val = 13

/-- Does `pat` occur as a contiguous sublist of `l`?  (JS `String.includes`
restricted to the characters of the strings.) -/
def containsList : List Char → List Char → Bool
  | _, [] => true
  | [], _ :: _ => false
  | c :: rest, pat =>
    if List.isPrefixOf pat (c :: rest) then true else containsList rest pat

/-- JS `String.prototype.includes` for our embedding. -/
def containsSubstring (s pat : String) : Bool := containsList s.toList pat.toList

/-- ASCII lower-casing of a string (JS `toLowerCase` on the ASCII range,
which is all the source ever relies on). -/
def toLowerStr (s : String) : String := String.mk (s.toList.map Char.toLower)

/-- JS `String.prototype.split` with a single-character separator. -/
def splitOnChar (sep : Char) : List Char → List (List Char)
  | [] => [[]]
  | c :: rest =>
    let r := splitOnChar sep rest
    if c = sep then [] :: r
    else
      match r with
      | h :: t => (c :: h) :: t
      | [] => [[c]]

/-- JS `String.prototype.trim` (ASCII whitespace suffices here). -/
def trimStr (s : String) : String :=
  String.mk (((s.toList.dropWhile isJsWs).reverse.dropWhile isJsWs).reverse)

/-- JS `String.prototype.padStart(n, c)`. -/
def padStart (s : String) (n : Nat) (c : Char) : String :=
  if n ≤ s.length then s else String.mk (List.replicate (n - s.length) c) ++ s

/-- JS `Math.round`: round half toward positive infinity. -/
def jsRound (q : ℚ) : ℤ := ⌊q + 1/2⌋

/-- The JS idiom `Number.parseFloat(x.toFixed(2))`: round to two decimal
places (float representation issues are abstracted away). -/
def roundTo2 (q : ℚ) : ℚ := (jsRound (q * 100) : ℚ) / 100

/-- Indexing into a fixed data pool: `pool[i % pool.length]`. -/
def pick (pool : List String) (i : Nat) : String := pool.getD (i % pool.length) ""

/-- JSON values (JS numbers are modelled as rationals). -/
inductive Value where
  | null
  | bool (b : Bool)
  | num (q : ℚ)
  | str (s : String)
  | arr (elems : List Value)
  | obj (fields : List (String × Value))

/-- Assignment to a JS object property: updates the binding in place when
the key exists (preserving insertion order), otherwise appends it. -/
def setField (l : List (String × Value)) (k : String) (v : Value) :
    List (String × Value) :=
  if l.any (fun p => p.1 == k) then
    l.map (fun p => if p.1 == k then (p.1, v) else p)
  else l ++ [(k, v)]

/-- `Object.keys` of a parsed JSON value (an object's field names; a
non-object has no string-named own properties that matter here). -/
def objFields : Value → List (String × Value)
  | .obj fields => fields
  | _ => []

/-- Skip JSON whitespace (space, tab, line feed, carriage return). -/
def skipJsonWs : List Char → List Char :=
  List.dropWhile (fun c => c = ' ' || c.val = 9 || c.val = 10 || c.val = 13)

/-- Scan a run of decimal digits, returning value, digit count and rest. -/
def parseDigits : List Char → Nat → Nat → Nat × Nat × List Char
  | c :: rest, acc, cnt =>
    if c.isDigit then parseDigits rest (acc * 10 + (c.toNat - 48)) (cnt + 1)
    else (acc, cnt, c :: rest)
  | [], acc, cnt => (acc, cnt, [])

/-- Parse the body of a JSON string literal (after the opening quote),
handling the standard escapes. -/
def parseJsonString : List Char → List Char → Option (String × List Char)
  | [], _ => none
  | c :: rest, acc =>
    if c = dquote then some (String.mk acc.reverse, rest)
    else if c = backslash then
      match rest with
      | [] => none
      | e :: rest2 =>
        if e = dquote then parseJsonString rest2 (dquote :: acc)
        else if e = backslash then parseJsonString rest2 (backslash :: acc)
        else if e = '/' then parseJsonString rest2 ('/' :: acc)
        else if e = 'n' then parseJsonString rest2 (Char.ofNat 10 :: acc)
        else if e = 't' then parseJsonString rest2 (Char.ofNat 9 :: acc)
        else if e = 'r' then parseJsonString rest2 (Char.ofNat 13 :: acc)
        else if e = 'b' then parseJsonString rest2 (Char.ofNat 8 :: acc)
        else if e = 'f' then parseJsonString rest2 (Char.ofNat 12 :: acc)
        else none
    else if c.val < 32 then none
    else parseJsonString rest (c :: acc)

/-- Parse a JSON number (sign, integer part with the leading-zero rule,
optional fraction, optional exponent). -/
def parseJsonNumber (l : List Char) : Option (ℚ × List Char) :=
  let signed : Bool × List Char := match l with
    | c :: r => if c = '-' then (true, r) else (false, l)
    | [] => (false, l)
  match signed.2 with
  | [] => none
  | c :: _ =>
    if ¬ c.isDigit then none
    else
      let ipr := parseDigits signed.2 0 0
      if c = '0' ∧ ipr.2.1 ≠ 1 then none
      else
        let fracStep : Option (Nat × Nat × List Char) :=
          match ipr.2.2 with
          | d :: r =>
            if d = '.' then
              match r with
              | e :: _ => if e.isDigit then some (parseDigits r 0 0) else none
              | [] => none
            else some (0, 0, ipr.2.2)
          | [] => some (0, 0, [])
        match fracStep with
        | none => none
        | some (fracVal, fracCnt, l3) =>
          let expStep : Option (ℤ × List Char) :=
            match l3 with
            | e :: r =>
              if e = 'e' ∨ e = 'E' then
                let esigned : Bool × List Char := match r with
                  | s :: r2 =>
                    if s = '-' then (true, r2)
                    else if s = '+' then (false, r2) else (false, r)
                  | [] => (false, r)
                match esigned.2 with
                | d :: _ =>
                  if d.isDigit then
                    let er := parseDigits esigned.2 0 0
                    some (if esigned.1 then -(er.1 : ℤ) else (er.1 : ℤ), er.2.2)
                  else none
                | [] => none
              else some (0, l3)
            | [] => some (0, [])
          match expStep with
          | none => none
          | some (ex, l4) =>
            let mag : ℚ := ((ipr.1 : ℚ) + (fracVal : ℚ) / (10 : ℚ) ^ fracCnt) *
              (10 : ℚ) ^ ex
            some (if signed.1 then -mag else mag, l4)

mutual

/-- Fuel-indexed JSON value parser (`JSON.parse` core). -/
def parseJsonVal : Nat → List Char → Option (Value × List Char)
  | 0, _ => none
  | fuel + 1, l0 =>
    let l := skipJsonWs l0
    match l with
    | [] => none
    | c :: rest =>
      if c = dquote then
        match parseJsonString rest [] with
        | some (s, r) => some (.str s, r)
        | none => none
      else if c = braceL then
        let r1 := skipJsonWs rest
        match r1 with
        | d :: r2 => if d = braceR then some (.obj [], r2) else parseJsonMembers fuel r1 []
        | [] => none
      else if c = brackL then
        let r1 := skipJsonWs rest
        match r1 with
        | d :: r2 => if d = brackR then some (.arr [], r2) else parseJsonElems fuel r1 []
        | [] => none
      else if List.isPrefixOf "null".toList l then some (.null, l.drop 4)
      else if List.isPrefixOf "true".toList l then some (.bool true, l.drop 4)
      else if List.isPrefixOf "false".toList l then some (.bool false, l.drop 5)
      else
        match parseJsonNumber l with
        | some (q, r) => some (.num q, r)
        | none => none

/-- Parse the members of a JSON object; duplicate keys overwrite in place,
as `JSON.parse` does. -/
def parseJsonMembers (fuel : Nat) (l : List Char) (acc : List (String × Value)) :
    Option (Value × List Char) :=
  match fuel with
  | 0 => none
  | fuel + 1 =>
    match skipJsonWs l with
    | [] => none
    | c :: rest =>
      if c = dquote then
        match parseJsonString rest [] with
        | none => none
        | some (k, r1) =>
          match skipJsonWs r1 with
          | d :: r2 =>
            if d = ':' then
              match parseJsonVal fuel r2 with
              | none => none
              | some (v, r3) =>
                let acc2 :=
                  if acc.any (fun p => p.1 == k) then
                    acc.map (fun p => if p.1 == k then (p.1, v) else p)
                  else acc ++ [(k, v)]
                match skipJsonWs r3 with
                | e :: r4 =>
                  if e = ',' then parseJsonMembers fuel r4 acc2
                  else if e = braceR then some (.obj acc2, r4)
                  else none
                | [] => none
            else none
          | [] => none
      else none

/-- Parse the elements of a JSON array. -/
def parseJsonElems (fuel : Nat) (l : List Char) (acc : List Value) :
    Option (Value × List Char) :=
  match fuel with
  | 0 => none
  | fuel + 1 =>
    match parseJsonVal fuel l with
    | none => none
    | some (v, r1) =>
      match skipJsonWs r1 with
      | e :: r2 =>
        if e = ',' then parseJsonElems fuel r2 (acc ++ [v])
        else if e = brackR then some (.arr (acc ++ [v]), r2)
        else none
      | [] => none

end

/-- `JSON.parse`: `none` models a thrown `SyntaxError`. -/
def jsonParse (s : String) : Option Value :=
  match parseJsonVal (s.length + 1) s.toList with
  | some (v, rest) => if skipJsonWs rest = [] then some v else none
  | none => none

/-- Serialize one character of a JSON string per `JSON.stringify`. -/
def jsonEscapeChar (c : Char) : List Char :=
  if c = dquote then [backslash, dquote]
  else if c = backslash then [backslash, backslash]
  else if c.val = 10 then [backslash, 'n']
  else if c.val = 9 then [backslash, 't']
  else if c.val = 13 then [backslash, 'r']
  else if c.val = 8 then [backslash, 'b']
  else if c.val = 12 then [backslash, 'f']
  else [c]

/-- Decimal digits of a natural number, fuel-indexed so that the kernel
can evaluate it (the fuel `n + 1` always suffices). -/
def natDigitsAux : Nat → Nat → List Char
  | 0, _ => []
  | fuel + 1, n =>
    if n < 10 then [Char.ofNat (48 + n)]
    else natDigitsAux fuel (n / 10) ++ [Char.ofNat (48 + n % 10)]

/-- Decimal digits of a natural number (most significant first). -/
def natDigits (n : Nat) : List Char := natDigitsAux (n + 1) n

/-- Render a JS number.  Integers print exactly; non-integers whose
denominator divides a power of ten print as finite decimals, which covers
every number the generator produces. -/
def jsNumToChars (q : ℚ) : List Char :=
  let sign : List Char := if q.num < 0 then ['-'] else []
  let n : Nat := q.num.natAbs
  if q.den = 1 then sign ++ natDigits n
  else
    let k : Nat := if (100 % q.den : Nat) = 0 then 2 else 6
    let scaled : Nat := n * (10 ^ k) / q.den
    let ip := scaled / 10 ^ k
    let fp := scaled % 10 ^ k
    let fpDigits := natDigits fp
    let fpPadded := List.replicate (k - fpDigits.length) '0' ++ fpDigits
    sign ++ natDigits ip ++ '.' :: (fpPadded.reverse.dropWhile (fun c => c = '0')).reverse

mutual

/-- `JSON.stringify` of a value, as a character list. -/
def stringifyVal : Value → List Char
  | .null => "null".toList
  | .bool b => if b then "true".toList else "false".toList
  | .num q => jsNumToChars q
  | .str s => dquote :: (s.toList.flatMap jsonEscapeChar) ++ [dquote]
  | .arr elems => brackL :: stringifyElems elems ++ [brackR]
  | .obj fields => braceL :: stringifyFields fields ++ [braceR]

/-- Comma-separated serialization of array elements. -/
def stringifyElems : List Value → List Char
  | [] => []
  | [v] => stringifyVal v
  | v :: rest => stringifyVal v ++ ',' :: stringifyElems rest

/-- Comma-separated serialization of object members. -/
def stringifyFields : List (String × Value) → List Char
  | [] => []
  | [(k, v)] => dquote :: (k.toList.flatMap jsonEscapeChar) ++ dquote :: ':' :: stringifyVal v
  | (k, v) :: rest =>
    dquote :: (k.toList.flatMap jsonEscapeChar) ++ dquote :: ':' :: stringifyVal v ++
      ',' :: stringifyFields rest

end

/-- `JSON.stringify` as a string. -/
def toJsonString (v : Value) : String := String.mk (stringifyVal v)

/-- First phase of the caret cleanup (`.replace(/\^"/g, '"')`). -/
def stripCaretQuote : List Char → List Char
  | [] => []
  | [c] => [c]
  | c :: c2 :: rest =>
    if c = caretC ∧ c2 = dquote then dquote :: stripCaretQuote rest
    else c :: stripCaretQuote (c2 :: rest)

/-- The cleanup at the top of `parseCurlCommand`:
`curlCommand.replace(/\^"/g, '"').replace(/\^/g, "")` (the second replace
deletes every remaining caret). -/
def cleanCurlChars (l : List Char) : List Char :=
  (stripCaretQuote l).filter (fun c => ¬ c = caretC)

/-- String version of the caret cleanup. -/
def cleanCurl (s : String) : String := String.mk (cleanCurlChars s.toList)

/-- Characters admitted by the URL-token class `[^'">\s]`. -/
def urlToken (c : Char) : Bool := ¬ (isQuoteChar c ∨ c = '>' ∨ isJsWs c)

/-- The tail of the URL regex: `['"]*([^'">\s]+)['"]*` with greedy
maximal-munch semantics (the bordering character classes are disjoint, so
the backtracking regex engine behaves exactly like maximal munch here). -/
def urlFinish (r : List Char) : Option String :=
  let r1 := r.dropWhile isQuoteChar
  let tok := r1.takeWhile urlToken
  if tok.isEmpty then none else some (String.mk tok)

/-- Attempt the URL regex `curl\s+(?:-X\s+\w+\s+)?['"]*([^'">\s]+)['"]*`
anchored at the head of `l`; if the optional `-X` group matches but the
remainder fails, the engine retries without the group. -/
def tryUrlAt (l : List Char) : Option String :=
  if List.isPrefixOf "curl".toList l then
    let r1 := l.drop 4
    if (r1.takeWhile isJsWs).isEmpty then none
    else
      let r2 := r1.dropWhile isJsWs
      let afterOpt : Option (List Char) :=
        if List.isPrefixOf "-X".toList r2 then
          let r3 := r2.drop 2
          if (r3.takeWhile isJsWs).isEmpty then none
          else
            let r4 := r3.dropWhile isJsWs
            if (r4.takeWhile isWordChar).isEmpty then none
            else
              let r5 := r4.dropWhile isWordChar
              if (r5.takeWhile isJsWs).isEmpty then none
              else some (r5.dropWhile isJsWs)
        else none
      match afterOpt with
      | some r6 =>
        match urlFinish r6 with
        | some u => some u
        | none => urlFinish r2
      | none => urlFinish r2
  else none

/-- Leftmost match of the URL regex (`cleanCurl.match(...)`, group 1). -/
def findUrl : List Char → Option String
  | [] => none
  | c :: rest =>
    match tryUrlAt (c :: rest) with
    | some u => some u
    | none => findUrl rest

/-- Attempt the method regex `-X\s+(\w+)` anchored at the head of `l`. -/
def tryMethodAt (l : List Char) : Option String :=
  if List.isPrefixOf "-X".toList l then
    let r := l.drop 2
    if (r.takeWhile isJsWs).isEmpty then none
    else
      let r2 := r.dropWhile isJsWs
      let w := r2.takeWhile isWordChar
      if w.isEmpty then none else some (String.mk w)
  else none

/-- Leftmost match of the method regex (group 1). -/
def findMethod : List Char → Option String
  | [] => none
  | c :: rest =>
    match tryMethodAt (c :: rest) with
    | some m => some m
    | none => findMethod rest

/-- Lazy capture of `(.*?)['"]` in the header regex: the shortest run of
non-line-terminator characters up to the next quote of either kind. -/
def headerCaptureScan : List Char → List Char → Option (String × List Char)
  | [], _ => none
  | c :: rest, acc =>
    if isQuoteChar c then some (String.mk acc.reverse, rest)
    else if isLineTerm c then none
    else headerCaptureScan rest (c :: acc)

/-- Attempt the header regex `-H\s+['"](.*?)['"]` anchored at the head of
`l`, returning the capture and the remainder after the whole match. -/
def tryHeaderAt (l : List Char) : Option (String × List Char) :=
  if List.isPrefixOf "-H".toList l then
    let r := l.drop 2
    if (r.takeWhile isJsWs).isEmpty then none
    else
      match r.dropWhile isJsWs with
      | c :: r2 => if isQuoteChar c then headerCaptureScan r2 [] else none
      | [] => none
  else none

/-- All captures of the global header regex, in order (`matchAll`
semantics: the search resumes after each complete match).  The fuel is the
input length, which bounds the number of scanning steps. -/
def headerCaptures : Nat → List Char → List String
  | 0, _ => []
  | _ + 1, [] => []
  | fuel + 1, c :: rest =>
    match tryHeaderAt (c :: rest) with
    | some (cap, after) => cap :: headerCaptures fuel after
    | none => headerCaptures fuel rest

/-- JS object-property assignment for string maps: later duplicate keys
overwrite earlier ones in place. -/
def insertAssoc (hs : List (String × String)) (k v : String) :
    List (String × String) :=
  if hs.any (fun p => p.1 == k) then
    hs.map (fun p => if p.1 == k then (p.1, v) else p)
  else hs ++ [(k, v)]

/-- The header-entry loop: split each capture on the first colon, trim both
sides, and store with mapping semantics (`headers[key.trim()] = ...`). -/
def buildHeaders : List String → List (String × String) → List (String × String)
  | [], hs => hs
  | m :: rest, hs =>
    match (splitOnChar ':' m.toList).map String.mk with
    | [] => buildHeaders rest hs
    | key :: valueParts =>
      if key ≠ "" ∧ valueParts.length > 0 then
        buildHeaders rest
          (insertAssoc hs (trimStr key) (trimStr (String.intercalate ":" valueParts)))
      else buildHeaders rest hs

/-- Lazy capture of `(.*?)['"](?:\s|$)` under the `/s` flag: grow the
capture until a quote followed by whitespace or end of input. -/
def quotedDataScan : List Char → List Char → Option String
  | [], _ => none
  | c :: rest, acc =>
    if isQuoteChar c && (match rest with | [] => true | d :: _ => isJsWs d) then
      some (String.mk acc.reverse)
    else quotedDataScan rest (c :: acc)

/-- Attempt a quoted payload pattern `FLAG\s+['"](.*?)['"](?:\s|$)`
anchored at the head of `l`. -/
def tryQuotedDataAt (flag : List Char) (l : List Char) : Option String :=
  if List.isPrefixOf flag l then
    let r := l.drop flag.length
    if (r.takeWhile isJsWs).isEmpty then none
    else
      match r.dropWhile isJsWs with
      | c :: r2 => if isQuoteChar c then quotedDataScan r2 [] else none
      | [] => none
  else none

/-- Leftmost match of a quoted payload pattern. -/
def findQuotedData (flag : List Char) : List Char → Option String
  | [] => none
  | c :: rest =>
    match tryQuotedDataAt flag (c :: rest) with
    | some b => some b
    | none => findQuotedData flag rest

/-- Does `(?:\s+-|$)` match at this position?  (`\s+` must reach a `-`;
shorter whitespace runs leave a whitespace character next, so only the
maximal run can be followed by `-`.) -/
def bareTerminator (l : List Char) : Bool :=
  match l with
  | [] => true
  | _ =>
    if (l.takeWhile isJsWs).isEmpty then false
    else
      match l.dropWhile isJsWs with
      | c :: _ => c = '-'
      | [] => false

/-- Lazy capture of `([^-\s].*?)` up to `(?:\s+-|$)` (the first character
is already in `acc`). -/
def bareDataScan : List Char → List Char → String
  | [], acc => String.mk acc.reverse
  | c :: rest, acc =>
    if bareTerminator (c :: rest) then String.mk acc.reverse
    else bareDataScan rest (c :: acc)

/-- Attempt the unquoted payload pattern
`--data-raw\s+([^-\s].*?)(?:\s+-|$)` anchored at the head of `l`. -/
def tryBareDataAt (l : List Char) : Option String :=
  if List.isPrefixOf "--data-raw".toList l then
    let r := l.drop 10
    if (r.takeWhile isJsWs).isEmpty then none
    else
      match r.dropWhile isJsWs with
      | c :: r2 => if c = '-' ∨ isJsWs c then none else some (bareDataScan r2 [c])
      | [] => none
  else none

/-- Leftmost match of the unquoted payload pattern. -/
def findBareData : List Char → Option String
  | [] => none
  | c :: rest =>
    match tryBareDataAt (c :: rest) with
    | some b => some b
    | none => findBareData rest

/-- The payload-pattern loop: take the first pattern whose first match has
a truthy (non-empty) capture. -/
def pickBody : List (Option String) → Option String
  | [] => none
  | some b :: rest => if b ≠ "" then some b else pickBody rest
  | none :: rest => pickBody rest

/-- Try the four payload-flag patterns in source order. -/
def findBody (l : List Char) : Option String :=
  pickBody [findQuotedData "--data-raw".toList l, findBareData l,
    findQuotedData "--data".toList l, findQuotedData "-d".toList l]

/-- Replace each left-to-right, non-overlapping occurrence of the pair
`[x, y]` by `r` (one global two-character regex replace). -/
def replacePair (x y : Char) (r : List Char) : List Char → List Char
  | [] => []
  | [c] => [c]
  | c :: c2 :: rest =>
    if c = x ∧ c2 = y then r ++ replacePair x y r rest
    else c :: replacePair x y r (c2 :: rest)

/-- The body escape normalization: double backslash to single, escaped
quote to quote, caret-quote to quote, then drop remaining carets. -/
def unescapeBody (s : String) : String :=
  String.mk
    (((replacePair backslash backslash [backslash] s.toList
      |> replacePair backslash dquote [dquote])
      |> replacePair caretC dquote [dquote]).filter (fun c => ¬ c = caretC))

/-- The structured request descriptor produced by the parser. -/
structure ParsedCurl where
  url : String
  method : String
  headers : List (String × String)
  body : Option String
deriving DecidableEq

/-- The empty descriptor the catch-all arm of `parseCurlCommand` returns. -/
def emptyParsedCurl : ParsedCurl :=
  { url := "", method := "GET", headers := [], body := none }

/-- `parseCurlCommand` (generate-scenarios route, lines 24-89).  Nothing in
the embedded body can throw, so the catch arm returning `emptyParsedCurl`
is dead code and the function is total. -/
def parseCurlCommand (curlCommand : String) : ParsedCurl :=
  let clean := cleanCurlChars curlCommand.toList
  let url := (findUrl clean).getD ""
  let methodM := findMethod clean
  let hasDataFlag := containsList clean "--data-raw".toList ||
    containsList clean "--data".toList || containsList clean "-d ".toList
  let method := match methodM with
    | some m => m
    | none => if hasDataFlag then "POST" else "GET"
  let headers := buildHeaders (headerCaptures clean.length clean) []
  let body := (findBody clean).map unescapeBody
  { url := url, method := method, headers := headers, body := body }

/-- The eleven domain keyword lists of `analyzeApiContext`, in insertion
order (ties keep the earlier domain). -/
def domainIndicators : List (String × List String) := [
  ("auth", ["auth", "login", "register", "signin", "signup", "token", "oauth"]),
  ("user", ["user", "profile", "account", "member", "customer"]),
  ("company", ["company", "organization", "business", "enterprise", "corp"]),
  ("product", ["product", "item", "catalog", "inventory", "goods"]),
  ("order", ["order", "purchase", "transaction", "payment", "checkout"]),
  ("content", ["post", "article", "blog", "content", "media", "document"]),
  ("finance", ["payment", "invoice", "billing", "subscription", "wallet"]),
  ("communication", ["message", "notification", "email", "sms", "chat"]),
  ("analytics", ["analytics", "stats", "metrics", "report", "dashboard"]),
  ("admin", ["admin", "management", "config", "settings", "control"]),
  ("iot", ["iot", "sensor", "device", "capture"])]

/-- `url.toLowerCase().split("/")`. -/
def urlPartsOf (url : String) : List String :=
  (splitOnChar '/' (toLowerStr url).toList).map String.mk

/-- `url.includes("?") ? url.split("?")[1] : ""` (original case). -/
def queryParamsOf (url : String) : String :=
  if containsSubstring url "?" then
    ((splitOnChar '?' url.toList).map String.mk).getD 1 ""
  else ""

/-- The URL scoring loop of `analyzeApiContext`: per domain, count the
keywords occurring in some path segment or in the query string; a domain
replaces the current winner only on a strictly greater count. -/
def scoreUrl (url : String) : String × Nat :=
  let urlParts := urlPartsOf url
  let queryParams := queryParamsOf url
  domainIndicators.foldl
    (fun acc di =>
      let hits := (di.2.filter (fun ind =>
        urlParts.any (fun part => containsSubstring part ind) ||
          containsSubstring queryParams ind)).length
      if hits > acc.2 then (di.1, hits) else acc)
    ("generic", 0)

/-- Field-pattern signal: some top-level field name contains `sub`
(case-insensitively). -/
def fieldHasSub (fields : List String) (sub : String) : Bool :=
  fields.any (fun f => containsSubstring (toLowerStr f) sub)

/-- `generateBusinessContext` (lines 182-199); its `payloadContext`
argument is unused in the source body, so it is dropped here. -/
def generateBusinessContext (domain : String) : String :=
  if domain = "auth" then
    "API d\u0027authentification - gestion des connexions, inscriptions et tokens"
  else if domain = "user" then
    "API de gestion utilisateurs - profils, comptes et données personnelles"
  else if domain = "company" then
    "API de gestion d\u0027entreprises - organisations, sociétés et entités business"
  else if domain = "product" then
    "API de gestion produits - catalogue, inventaire et références"
  else if domain = "order" then
    "API de commandes - transactions, achats et processus de vente"
  else if domain = "content" then
    "API de contenu - articles, médias et publications"
  else if domain = "finance" then
    "API financière - paiements, facturation et transactions monétaires"
  else if domain = "communication" then
    "API de communication - messages, notifications et échanges"
  else if domain = "analytics" then
    "API d\u0027analytics - statistiques, métriques et rapports"
  else if domain = "admin" then
    "API d\u0027administration - configuration, gestion et contrôle système"
  else if domain = "iot" then
    "API IoT - gestion des capteurs et appareils"
  else "API générique - fonctionnalités diverses"

/-- The classifier output (`payloadFields` models `payloadContext.fields`,
empty when the body is absent or fails to parse). -/
structure ApiContext where
  domain : String
  confidence : Nat
  endpoint : String
  resource : String
  payloadFields : List String
  businessContext : String
deriving DecidableEq

/-- `analyzeApiContext` (lines 91-180).  A body parsing to `null` makes
`Object.keys` throw, and the catch arm keeps the URL-derived result, which
coincides with the non-object case here; other non-object bodies have no
letter-named keys, so no override fires either. -/
def analyzeApiContext (parsedCurl : ParsedCurl) : ApiContext :=
  let urlParts := urlPartsOf parsedCurl.url
  let base := scoreUrl parsedCurl.url
  let refined : String × Nat × List String :=
    match parsedCurl.body with
    | none => (base.1, base.2, [])
    | some b =>
      match jsonParse b with
      | none => (base.1, base.2, [])
      | some v =>
        let fields := (objFields v).map Prod.fst
        let hasEmail := fieldHasSub fields "email"
        let hasPassword := fieldHasSub fields "password"
        let hasName := fieldHasSub fields "name"
        let hasAddress := fieldHasSub fields "address"
        let hasPhone := fieldHasSub fields "phone"
        let hasPrice := fieldHasSub fields "price" || fieldHasSub fields "amount"
        if hasEmail && hasPassword then ("auth", base.2 + 2, fields)
        else if hasPrice && hasName then ("product", base.2 + 2, fields)
        else if hasAddress && hasPhone then ("user", base.2 + 2, fields)
        else (base.1, base.2, fields)
  let endpoint :=
    match urlParts.getLast? with
    | some e => if e = "" then "unknown" else e
    | none => "unknown"
  let resource :=
    if urlParts.length < 2 then "unknown"
    else
      let r := urlParts.getD (urlParts.length - 2) ""
      if r = "" then "unknown" else r
  { domain := refined.1, confidence := refined.2.1, endpoint := endpoint,
    resource := resource, payloadFields := refined.2.2,
    businessContext := generateBusinessContext refined.1 }

/-- The classification labels of `analyzeFieldContext`. -/
inductive FieldDataType where
  | humanName
  | businessName
  | identifier
  | contact
  | urlField
  | genericField
deriving DecidableEq

/-- The result record of `analyzeFieldContext`. -/
structure FieldContext where
  needsUniqueness : Bool
  dataType : FieldDataType
  isHumanReadable : Bool
deriving DecidableEq

/-- The alternatives of the anchored human-name regex
`^(first_?name|last_?name|given_?name|family_?name|prenom|nom)$`. -/
def humanNameKeys : List String :=
  ["firstname", "first_name", "lastname", "last_name", "givenname",
   "given_name", "familyname", "family_name", "prenom", "nom"]

/-- `analyzeFieldContext` (lines 445-494). -/
def analyzeFieldContext (fieldName domain : String) : FieldContext :=
  let lowerField := toLowerStr fieldName
  if humanNameKeys.any (fun k => k == lowerField) then
    { needsUniqueness := false, dataType := .humanName, isHumanReadable := true }
  else if containsSubstring lowerField "email" || containsSubstring lowerField "username" ||
      containsSubstring lowerField "login" then
    { needsUniqueness := true, dataType := .contact, isHumanReadable := true }
  else if containsSubstring lowerField "url" || containsSubstring lowerField "website" ||
      containsSubstring lowerField "linkedin" then
    { needsUniqueness := true, dataType := .urlField, isHumanReadable := true }
  else if containsSubstring lowerField "name" && !containsSubstring lowerField "first" &&
      !containsSubstring lowerField "last" then
    if domain == "company" || containsSubstring lowerField "company" ||
        containsSubstring lowerField "business" then
      { needsUniqueness := true, dataType := .businessName, isHumanReadable := true }
    else if containsSubstring lowerField "product" || containsSubstring lowerField "item" then
      { needsUniqueness := true, dataType := .businessName, isHumanReadable := true }
    else
      { needsUniqueness := true, dataType := .businessName, isHumanReadable := true }
  else if containsSubstring lowerField "id" || containsSubstring lowerField "ref" ||
      containsSubstring lowerField "code" then
    { needsUniqueness := true, dataType := .identifier, isHumanReadable := false }
  else if containsSubstring lowerField "phone" || containsSubstring lowerField "tel" then
    { needsUniqueness := true, dataType := .contact, isHumanReadable := false }
  else
    { needsUniqueness := false, dataType := .genericField, isHumanReadable := true }

/-- A field pinned to a fixed value across every generated scenario. -/
structure StaticAttribute where
  name : String
  value : String
deriving DecidableEq

/-- The `realisticData.firstNames` pool. -/
def firstNames : List String :=
  ["Jean", "Marie", "Pierre", "Sophie", "Ahmed", "Fatima", "David", "Sarah",
   "Lucas", "Emma", "Thomas", "Julie", "Nicolas", "Camille", "Alexandre"]

/-- The `realisticData.lastNames` pool. -/
def lastNames : List String :=
  ["Martin", "Dubois", "Bernard", "Moreau", "Petit", "Robert", "Richard",
   "Durand", "Leroy", "Simon", "Laurent", "Lefebvre", "Michel", "Garcia"]

/-- The `realisticData.companyNames` pool. -/
def companyNames : List String :=
  ["TechSolutions", "InnovaCorp", "DigitalPro", "SmartBusiness", "FutureTech",
   "ProServices", "EliteConsulting", "NextGen", "DataFlow", "CloudTech",
   "WebMaster", "CodeCraft", "InnovateLab", "TechVision", "DigitalEdge"]

/-- The `realisticData.companyTypes` pool. -/
def companyTypes : List String :=
  ["IT_SERVICES_COMPANY", "CONSULTING", "MANUFACTURING", "RETAIL", "FINANCE",
   "HEALTHCARE", "EDUCATION", "LOGISTICS"]

/-- The `realisticData.productNames` pool. -/
def productNames : List String :=
  ["Smartphone Pro", "Laptop Gaming", "Casque Audio", "Tablette Design",
   "Montre Connectée", "Écouteurs Sans Fil"]

/-- The `realisticData.domains` pool of TLD suffixes. -/
def domainsPool : List String := [".com", ".fr", ".net", ".org", ".io", ".tech"]

/-- The `realisticData.linkedinSuffixes` pool. -/
def linkedinSuffixes : List String :=
  ["", "-corp", "-group", "-solutions", "-tech", "-consulting"]

/-- The password pool declared inline in the password branch. -/
def passwordsPool : List String :=
  ["SecurePass123!", "MyPassword2024!", "StrongPwd456!", "SafeLogin789!"]

/-- Lower-case a pool value and delete whitespace
(`.toLowerCase().replace(/\s+/g, "")`). -/
def companySlug (s : String) : String :=
  String.mk ((toLowerStr s).toList.filter (fun c => !isJsWs c))

/-- The body of the per-key forEach in `generateValidTestData` (lines
753-814) for a non-static key.  `q` is the `Math.random()` draw available
to this key; only the phone and price branches consume it.  `Math.abs` in
the index derivation is the identity because `timestamp` stems from
`Date.now()` and is modelled as a natural number. -/
def generateFieldValue (domain : String) (timestamp : Nat) (q : ℚ)
    (key : String) (v : Value) : Value :=
  let lowerKey := toLowerStr key
  let fieldContext := analyzeFieldContext key domain
  let index := (timestamp + key.length) % 1000
  if containsSubstring lowerKey "email" then
    let firstName := toLowerStr (pick firstNames index)
    let lastName := toLowerStr (pick lastNames index)
    .str s!"{firstName}.{lastName}.{timestamp}@example.com"
  else if fieldContext.dataType == .humanName then
    if containsSubstring lowerKey "first" then .str (pick firstNames index)
    else .str (pick lastNames index)
  else if fieldContext.dataType == .businessName then
    let baseName :=
      if domain == "company" || containsSubstring lowerKey "company" then
        pick companyNames index
      else if containsSubstring lowerKey "product" then pick productNames index
      else pick companyNames index
    .str (if fieldContext.needsUniqueness && lowerKey == "name" then
      s!"{baseName} {index}" else baseName)
  else if containsSubstring lowerKey "type" &&
      (domain == "company" || containsSubstring lowerKey "company") then
    .str (pick companyTypes index)
  else if containsSubstring lowerKey "phone" then
    .str ("0" ++ toString (⌊q * 9⌋ + 1) ++
      padStart (toString (timestamp % 100000000)) 8 '0')
  else if containsSubstring lowerKey "linkedin" then
    let companyName := companySlug (pick companyNames index)
    let suffix := pick linkedinSuffixes index
    .str s!"https://linkedin.com/company/{companyName}{suffix}-{timestamp}"
  else if containsSubstring lowerKey "website" ||
      (containsSubstring lowerKey "url" && !containsSubstring lowerKey "linkedin") then
    let companyName := companySlug (pick companyNames index)
    let tld := pick domainsPool index
    .str s!"https://{companyName}-{timestamp}{tld}"
  else if containsSubstring lowerKey "password" then
    .str (pick passwordsPool index)
  else if containsSubstring lowerKey "price" || containsSubstring lowerKey "amount" then
    .num (roundTo2 (q * 1000 + 10))
  else if fieldContext.dataType == .identifier then
    .str s!"{lowerKey}_{timestamp}_{index}"
  else
    match v with
    | .str s =>
      if s.length > 10 then
        if fieldContext.isHumanReadable then
          let baseName :=
            if domain == "company" then pick companyNames index
            else if domain == "product" then pick productNames index
            else "Valeur Réaliste"
          .str (if fieldContext.needsUniqueness then s!"{baseName} {timestamp}"
            else baseName)
        else .str s!"value_{timestamp}_{index}"
      else v
    | _ => v

/-- Is the key pinned by some static attribute
(`staticAttributes.some((attr) => attr.name === key)`, strict equality)? -/
def isStaticField (staticAttributes : List StaticAttribute) (key : String) : Bool :=
  staticAttributes.any (fun attr => attr.name == key)

/-- Value a pinned key receives: the static-attribute pass assigns each
matching attribute in order, so the last one wins. -/
def staticValue (staticAttributes : List StaticAttribute) (key : String)
    (v : Value) : Value :=
  staticAttributes.foldl
    (fun acc attr => if attr.name == key then Value.str attr.value else acc) v

/-- The last matching static attribute value for a key, if any. -/
def staticLookup (staticAttributes : List StaticAttribute) (key : String) :
    Option String :=
  staticAttributes.foldl
    (fun acc attr => if attr.name == key then some attr.value else acc) none

/-- The key loop of `generateValidTestData`.  `rand i` models the
`Math.random()` draw available while the i-th key is processed (the source
draws lazily inside the phone and price branches; supplying a draw per key
changes no field's value). -/
def genFields (domain : String) (timestamp : Nat) (sa : List StaticAttribute)
    (rand : Nat → ℚ) : List (String × Value) → Nat → List (String × Value)
  | [], _ => []
  | (key, v) :: rest, i =>
    (key, if isStaticField sa key then staticValue sa key v
      else generateFieldValue domain timestamp (rand i) key v) ::
      genFields domain timestamp sa rand rest (i + 1)

/-- `generateValidTestData` (lines 659-818): `{ ...originalData }`, the
static-attribute pass (strict name equality, later duplicates
overwriting), then the per-key forEach skipping static keys.  The two
passes collapse to one case split per key; the key list is untouched. -/
def generateValidTestData (originalData : List (String × Value)) (domain : String)
    (timestamp : Nat) (staticAttributes : List StaticAttribute)
    (rand : Nat → ℚ) : List (String × Value) :=
  genFields domain timestamp staticAttributes rand originalData 0

/-- `generateInvalidValue` (lines 820-842). -/
def generateInvalidValue (fieldName : String) (originalValue : Value) : Value :=
  let lowerField := toLowerStr fieldName
  if containsSubstring lowerField "email" then
    .str "invalid-email-format-without-at-symbol"
  else if containsSubstring lowerField "phone" then .str "invalid-phone-123abc"
  else if containsSubstring lowerField "url" || containsSubstring lowerField "website" ||
      containsSubstring lowerField "linkedin" then
    .str "not-a-valid-url-format"
  else if containsSubstring lowerField "password" then .str "123"
  else if containsSubstring lowerField "name" &&
      (match originalValue with | .str _ => true | _ => false) then
    .str (String.mk (List.replicate 1000 'x'))
  else
    match originalValue with
    | .num _ => .num (-999999)
    | .bool _ => .str "not-a-boolean-value"
    | .str _ => .str (String.mk (List.replicate 1000 'x'))
    | _ => .null

/-- A synthesized test scenario (the `TestScenario` interface). -/
structure TestScenario where
  name : String
  description : String
  method : String
  url : String
  headers : Option (List (String × String))
  body : Option String
  expectedStatus : Option Int
deriving DecidableEq

/-- The scenario batch wrapper (the `ScenariosResponse` interface). -/
structure ScenariosResponse where
  scenarios : List TestScenario
deriving DecidableEq

/-- JS string truthiness of an optional body (`if (body)`). -/
def jsTruthy : Option String → Bool
  | some s => s ≠ ""
  | none => false

/-- The `body || undefined` idiom. -/
def jsBodyOrUndefined : Option String → Option String
  | some s => if s = "" then none else some s
  | none => none

/-- `{ ...headers, k: undefined }`: the header is effectively removed from
the outgoing request (the JS object retains the key with an undefined
value, which never reaches the wire). -/
def headersWithout (hs : List (String × String)) (k : String) :
    List (String × String) :=
  hs.filter (fun p => ¬ p.1 == k)

/-- One per-field-invalid scenario of the fallback builder: a fresh valid
baseline with nonce offset `i` (its random draws being stream `1 + i`),
with only the targeted field overwritten by its invalid value. -/
def mkInvalidFieldScenario (bodyObj : List (String × Value)) (domain : String)
    (method url : String) (headers : List (String × String))
    (sa : List StaticAttribute) (timestamp : Nat) (rands : Nat → Nat → ℚ)
    (i : Nat) (field : String) (origVal : Value) : TestScenario :=
  let baseValidData := generateValidTestData bodyObj domain (timestamp + i) sa (rands (1 + i))
  let invalidData := setField baseValidData field (generateInvalidValue field origVal)
  { name := s!"Validation - {field} invalide",
    description :=
      s!"Test avec {field} contenant une valeur invalide, tous autres champs valides et uniques",
    method := method, url := url, headers := some headers,
    body := some (toJsonString (Value.obj invalidData)),
    expectedStatus := some 400 }

/-- The `fields.forEach((field, index) => ...)` loop of the fallback
builder: for the first four fields, build a fresh baseline and corrupt the
one field, skipping (without replacement) fields pinned by a static
attribute. -/
def perFieldGo (bodyObj : List (String × Value)) (domain : String)
    (method url : String) (headers : List (String × String))
    (sa : List StaticAttribute) (timestamp : Nat) (rands : Nat → Nat → ℚ) :
    List (String × Value) → Nat → List TestScenario
  | [], _ => []
  | (field, origVal) :: rest, i =>
    if i < 4 then
      (if isStaticField sa field then []
       else [mkInvalidFieldScenario bodyObj domain method url headers sa timestamp
         rands i field origVal]) ++
        perFieldGo bodyObj domain method url headers sa timestamp rands rest (i + 1)
    else perFieldGo bodyObj domain method url headers sa timestamp rands rest (i + 1)

/-- The per-field-invalid block of the fallback builder. -/
def perFieldInvalidScenarios (bodyObj : List (String × Value)) (domain : String)
    (method url : String) (headers : List (String × String))
    (sa : List StaticAttribute) (timestamp : Nat) (rands : Nat → Nat → ℚ) :
    List TestScenario :=
  perFieldGo bodyObj domain method url headers sa timestamp rands bodyObj 0

/-- The nominal scenario of the fallback builder. -/
def nominalScenario (bodyObj : List (String × Value)) (ctx : ApiContext)
    (method url : String) (headers : List (String × String))
    (sa : List StaticAttribute) (timestamp : Nat) (rands : Nat → Nat → ℚ) :
    TestScenario :=
  let d := ctx.domain
  let bc := ctx.businessContext
  { name := s!"{d} - Données valides",
    description := s!"Test nominal avec données valides pour {bc}",
    method := method, url := url, headers := some headers,
    body := some (toJsonString (Value.obj
      (generateValidTestData bodyObj ctx.domain timestamp sa (rands 0)))),
    expectedStatus := some (if method == "POST" then 201 else 200) }

/-- The missing-required-field scenario: first non-pinned field (the JS
`find(...) || fields[0]` fallback kicks in when that is the empty string),
deleted from a fresh baseline with nonce offset 100. -/
def missingFieldScenario (bodyObj : List (String × Value)) (domain : String)
    (method url : String) (headers : List (String × String))
    (sa : List StaticAttribute) (timestamp : Nat) (rands : Nat → Nat → ℚ) :
    TestScenario :=
  let fields := bodyObj.map Prod.fst
  let found := fields.find? (fun field => !isStaticField sa field)
  let requiredField : Option String :=
    match found with
    | some f => if f = "" then fields.head? else some f
    | none => fields.head?
  let fieldName := requiredField.getD "undefined"
  let validDataForMissingTest :=
    generateValidTestData bodyObj domain (timestamp + 100) sa (rands 5)
  let afterDelete := validDataForMissingTest.filter (fun p => ¬ p.1 == fieldName)
  { name := s!"Validation - {fieldName} manquant",
    description :=
      s!"Test avec champ obligatoire {fieldName} manquant, autres champs valides et uniques",
    method := method, url := url, headers := some headers,
    body := some (toJsonString (Value.obj afterDelete)),
    expectedStatus := some 400 }

/-- The injection-probe URL: append the SQL probe as a query parameter. -/
def injectionUrl (url : String) : String :=
  if containsSubstring url "?" then url ++ "&id=1\u0027 OR \u00271\u0027=\u00271"
  else url ++ "?id=1\u0027 OR \u00271\u0027=\u00271"

/-- `url.replace(/\/\d+/, "/999999")`: replace the first slash-digit-run
with `/999999`; a URL without a numeric segment is returned unchanged. -/
def replaceFirstNumSeg : List Char → List Char
  | [] => []
  | c :: rest =>
    if c = '/' then
      match rest with
      | d :: _ =>
        if d.isDigit then ('/' :: "999999".toList) ++ rest.dropWhile Char.isDigit
        else c :: replaceFirstNumSeg rest
      | [] => [c]
    else c :: replaceFirstNumSeg rest

/-- The not-found-probe URL. -/
def notFoundUrl (url : String) : String := String.mk (replaceFirstNumSeg url.toList)

/-- `generateComprehensiveFallback` (lines 496-657).  `timestamp` is the
`Date.now()` value sampled at entry; `rands k` is the `Math.random()`
stream of the k-th `generateValidTestData` call (0 nominal, `1 + i` for
field index `i`, 5 missing-field, 6 rate-limit). -/
def generateComprehensiveFallback (parsedCurl : ParsedCurl) (apiContext : ApiContext)
    (staticAttributes : List StaticAttribute) (timestamp : Nat)
    (rands : Nat → Nat → ℚ) : ScenariosResponse :=
  let method := parsedCurl.method
  let url := parsedCurl.url
  let headers := parsedCurl.headers
  let body := parsedCurl.body
  let bodyScenarios : List TestScenario :=
    match body with
    | some b =>
      match jsonParse b with
      | some v =>
        let bodyObj := objFields v
        nominalScenario bodyObj apiContext method url headers staticAttributes
            timestamp rands ::
          perFieldInvalidScenarios bodyObj apiContext.domain method url headers
            staticAttributes timestamp rands ++
          [missingFieldScenario bodyObj apiContext.domain method url headers
            staticAttributes timestamp rands]
      | none => []
    | none => []
  let securityScenarios : List TestScenario := [
    { name := "Sécurité - Authentification manquante",
      description := "Test sans token d\u0027authentification",
      method := method, url := url,
      headers := some (headersWithout headers "Authorization"),
      body := jsBodyOrUndefined body, expectedStatus := some 401 },
    { name := "Sécurité - Token invalide",
      description := "Test avec token d\u0027authentification invalide",
      method := method, url := url,
      headers := some (insertAssoc headers "Authorization" "Bearer invalid_token_12345"),
      body := jsBodyOrUndefined body, expectedStatus := some 401 },
    { name := "Sécurité - Injection SQL",
      description := "Test d\u0027injection SQL dans les paramètres",
      method := method, url := injectionUrl url,
      headers := some headers,
      body := jsBodyOrUndefined body, expectedStatus := some 400 }]
  let perfScenarios : List TestScenario :=
    if jsTruthy body then
      match body with
      | some b =>
        match jsonParse b with
        | some v =>
          [{ name := "Performance - Rate limiting",
             description := "Test de limitation de taux",
             method := method, url := url,
             headers := some (insertAssoc headers "X-Test-Rate-Limit" "true"),
             body := some (toJsonString (Value.obj (generateValidTestData
               (objFields v) apiContext.domain (timestamp + 200) staticAttributes
               (rands 6)))),
             expectedStatus := some 429 }]
        | none =>
          [{ name := "Performance - Rate limiting",
             description := "Test de limitation de taux",
             method := method, url := url,
             headers := some (insertAssoc headers "X-Test-Rate-Limit" "true"),
             body := jsBodyOrUndefined body, expectedStatus := some 429 }]
      | none => []
    else []
  let errorScenarios : List TestScenario := [
    { name := "Erreur - Ressource inexistante",
      description := "Test avec ID de ressource inexistant",
      method := method, url := notFoundUrl url, headers := some headers,
      body := jsBodyOrUndefined body, expectedStatus := some 404 },
    { name := "Erreur - Conflit de données",
      description := "Test de création avec données en conflit",
      method := method, url := url, headers := some headers,
      body := jsBodyOrUndefined body, expectedStatus := some 409 }]
  { scenarios := bodyScenarios ++ securityScenarios ++ perfScenarios ++ errorScenarios }

/-- The response body after text extraction and tolerant JSON parsing. -/
inductive ResponseData where
  | jsonVal (v : Value)
  | rawText (s : String)
  | nullData

/-- One executed scenario result (the `TestResult` interface). -/
structure TestResult where
  scenario : TestScenario
  success : Bool
  status : Int
  responseTime : Nat
  error : Option String
  response : Option ResponseData
  payload : Option String

/-- The request options handed to `fetch` (the `RequestInit` value built by
`executeTest`). -/
structure RequestOptions where
  method : String
  headers : List (String × String)
  body : Option String
deriving DecidableEq

/-- Outcome of one transport round trip: a response (status and body
text), or a rejected fetch promise carrying an error message. -/
inductive FetchOutcome where
  | failure (msg : String)
  | response (status : Int) (text : String)
deriving DecidableEq

/-- The ambient effects of the executor: `new URL` validation, the network
itself, and the wall clock (elapsed milliseconds per scenario). -/
structure ExecEnv where
  urlOk : String → Bool
  fetch : String → RequestOptions → FetchOutcome
  elapsed : TestScenario → Nat

/-- JS truthiness lookup used by the content-type guard
(`!requestOptions.headers["Content-Type"]`): a missing key and an
empty-string value are both falsy. -/
def headerTruthy (hs : List (String × String)) (k : String) : Bool :=
  match hs.find? (fun p => p.1 == k) with
  | some p => p.2 ≠ ""
  | none => false

/-- Content-type inference for a request body: JSON if it parses, form
encoding if it contains both `=` and `&`, else plain text. -/
def inferContentType (body : String) : String :=
  if (jsonParse body).isSome then "application/json"
  else if containsSubstring body "=" && containsSubstring body "&" then
    "application/x-www-form-urlencoded"
  else "text/plain"

/-- The default headers merged under the scenario's own
(`{ "User-Agent": ..., Accept: ..., ...scenario.headers }`). -/
def defaultExecHeaders : List (String × String) :=
  [("User-Agent", "API-Tester/1.0"), ("Accept", "application/json, text/plain, */*")]

/-- Spread semantics for header objects: start from `base`, then each
entry of `extra` overwrites or appends. -/
def spreadHeaders (base extra : List (String × String)) : List (String × String) :=
  extra.foldl (fun acc p => insertAssoc acc p.1 p.2) base

/-- The request options built at the top of `executeTest` (body and
content-type handling included; `if (scenario.body)` is JS-truthy, so an
empty-string body attaches nothing). -/
def buildRequestOptions (scenario : TestScenario) : RequestOptions :=
  let headers0 := spreadHeaders defaultExecHeaders (scenario.headers.getD [])
  match scenario.body with
  | some b =>
    if b ≠ "" then
      let headers1 :=
        if ¬ headerTruthy headers0 "Content-Type" ∧ ¬ headerTruthy headers0 "content-type" then
          insertAssoc headers0 "Content-Type" (inferContentType b)
        else headers0
      { method := scenario.method, headers := headers1, body := some b }
    else { method := scenario.method, headers := headers0, body := none }
  | none => { method := scenario.method, headers := headers0, body := none }

/-- `expectedStatus`: the scenario's own value unless absent or zero
(JS falsiness), else the method-derived default. -/
def expectedStatusFor (scenario : TestScenario) : Int :=
  let e0 := scenario.expectedStatus.getD 0
  if e0 = 0 then
    if scenario.method == "POST" then 201
    else if scenario.method == "PUT" then 200
    else if scenario.method == "PATCH" then 200
    else if scenario.method == "DELETE" then 204
    else 200
  else e0

/-- `executeTest` (run-tests route, lines 23-121).  The catch arm covers
both the malformed-URL throw and a rejected fetch. -/
def executeTest (env : ExecEnv) (scenario : TestScenario) : TestResult :=
  let options := buildRequestOptions scenario
  let payload : Option String :=
    match scenario.body with
    | some b => if b ≠ "" then some b else none
    | none => none
  if env.urlOk scenario.url then
    match env.fetch scenario.url options with
    | .failure msg =>
      { scenario := scenario, success := false, status := 0,
        responseTime := env.elapsed scenario, error := some msg,
        response := none, payload := scenario.body }
    | .response st text =>
      let responseData : ResponseData :=
        if text ≠ "" then
          match jsonParse text with
          | some v => .jsonVal v
          | none => .rawText text
        else .nullData
      let expectedStatus := expectedStatusFor scenario
      { scenario := scenario, success := st == expectedStatus, status := st,
        responseTime := env.elapsed scenario, error := none,
        response := some responseData, payload := payload }
  else
    { scenario := scenario, success := false, status := 0,
      responseTime := env.elapsed scenario,
      error := some ("URL invalide: " ++ scenario.url),
      response := none, payload := scenario.body }

/-- The aggregated summary of a test batch. -/
structure ReportSummary where
  total : Nat
  passed : Nat
  failed : Nat
  avgResponseTime : Option Int
deriving DecidableEq

/-- The report returned by the batch entrypoint. -/
structure TestReport where
  scenarios : List TestScenario
  results : List TestResult
  summary : ReportSummary

/-- The aggregation in the run-tests `POST` handler (lines 131-147).
`avgResponseTime` is `Math.round` of the mean over all results; on an
empty batch the JS division yields `NaN`, modelled as `none`. -/
def buildReport (env : ExecEnv) (scenarios : List TestScenario) : TestReport :=
  let results := scenarios.map (executeTest env)
  let total := results.length
  let passed := (results.filter (fun r => r.success)).length
  let failed := total - passed
  let avgResponseTime : Option Int :=
    if total = 0 then none
    else some (jsRound (((results.map (fun r => r.responseTime)).sum : ℚ) / (total : ℚ)))
  { scenarios := scenarios, results := results,
    summary :=
      { total := total, passed := passed, failed := failed,
        avgResponseTime := avgResponseTime } }

/-- Response of the batch entrypoint: a JSON error with an HTTP status, or
a report. -/
inductive PostResponse where
  | jsonError (msg : String) (status : Nat)
  | report (r : TestReport)

/-- Did the entrypoint answer with an error payload? -/
def isPostError : PostResponse → Bool
  | .jsonError _ _ => true
  | .report _ => false

/-- The run-tests `POST` handler (lines 123-154).  The request-body field
`scenarios` is `none` when it is missing, falsy or not an array
(`!scenarios || !Array.isArray(scenarios)`); note an empty array is an
array and is truthy in JS, so it is `some []` here. -/
def runTestsPost (env : ExecEnv) (scenarios : Option (List TestScenario)) :
    PostResponse :=
  match scenarios with
  | none => .jsonError "Scénarios requis" 400
  | some ss => .report (buildReport env ss)

/-- The summary object the analyze-results route receives. -/
structure AnalyzeSummary where
  total : Nat
  passed : Nat
  failed : Nat
  avgResponseTime : Int
deriving DecidableEq

/-- Per-scenario part of the deterministic fallback analysis (the fields
the design notes constrain; the free-text French strings around them carry
no further structure). -/
structure ScenarioAnalysisCore where
  scenarioName : String
  outcome : String
  performanceRating : String
  securityLevel : String
deriving DecidableEq

/-- The deterministic fallback analysis (the fields the design notes
constrain). -/
structure FallbackAnalysis where
  reliabilityScore : Option Int
  securityIssues : List String
  scenarioAnalyses : List ScenarioAnalysisCore
deriving DecidableEq

/-- The per-result performance rating of the fallback analysis
(analyze-results route, lines 280-289). -/
def performanceRating (responseTime : Nat) : String :=
  if responseTime < 200 then "excellent"
  else if responseTime < 500 then "good"
  else if responseTime < 1000 then "average"
  else "poor"

/-- The per-result security level of the fallback analysis. -/
def securityLevelFor (r : TestResult) : String :=
  if r.status == 401 then "vulnerable"
  else if r.success then "secure"
  else "moderate"

/-- The security issue list of the fallback analysis (lines 255-256). -/
def fallbackSecurityIssues (results : List TestResult) : List String :=
  if results.any (fun r => r.status == 401) then
    ["Problèmes d\u0027authentification détectés"]
  else []

/-- `successRate = (summary.passed / summary.total) * 100`; `none` models
the `NaN` arising on a zero total. -/
def successRateOf (summary : AnalyzeSummary) : Option ℚ :=
  if summary.total = 0 then none
  else some ((summary.passed : ℚ) / (summary.total : ℚ) * 100)

/-- The reliability score of the fallback analysis (line 264):
`Math.max(1, Math.min(10, Math.round(successRate / 10)))`; a `NaN`
success rate propagates. -/
def fallbackReliabilityScore (summary : AnalyzeSummary) : Option Int :=
  match successRateOf summary with
  | none => none
  | some rate => some (max 1 (min 10 (jsRound (rate / 10))))

/-- The deterministic fallback analysis built in the catch arm of the
analyze-results `POST` handler (lines 231-305), restricted to the
structured fields. -/
def fallbackAnalysis (results : List TestResult) (summary : AnalyzeSummary) :
    FallbackAnalysis :=
  { reliabilityScore := fallbackReliabilityScore summary,
    securityIssues := fallbackSecurityIssues results,
    scenarioAnalyses := results.map (fun r =>
      { scenarioName := r.scenario.name,
        outcome := if r.success then "success" else "failure",
        performanceRating := performanceRating r.responseTime,
        securityLevel := securityLevelFor r }) }

/-- Concrete payload exhibiting the isolation edge case: the invalid
replacement for a plain numeric field is the sentinel `-999999`, which the
first field already holds. -/
def collidingPayload : List (String × Value) :=
  [("a", Value.num (-999999)), ("b", Value.num 1), ("c", Value.num 2),
   ("d", Value.num 3)]

/-- A concrete four-field payload with no pinned fields. -/
def fourFieldPayload : List (String × Value) :=
  [("alpha", Value.str "a"), ("beta", Value.str "b"), ("gamma", Value.str "c"),
   ("delta", Value.str "d")]

/-- The constantly-zero random stream family. -/
def zeroRands : Nat → Nat → ℚ := fun _ _ => 0

/-- Environment used by the closing theorems: every URL is rejected by
`new URL`, the network is down, and every call takes five milliseconds. -/
def envDown : ExecEnv :=
  { urlOk := fun _ => false, fetch := fun _ _ => .failure "fetch failed",
    elapsed := fun _ => 5 }

/-- A sample scenario aimed at a syntactically malformed URL. -/
def sampleScenario : TestScenario :=
  { name := "probe", description := "sample", method := "GET", url := "not a url",
    headers := none, body := none, expectedStatus := none }

/-- A request descriptor whose URL suggests the `product` domain but whose
body carries both an email and a password field. -/
def pcAuth : ParsedCurl :=
  { url := "https://api.example.com/products", method := "POST", headers := [],
    body := some "\x7b\"email\":\"a\",\"password\":\"b\"\x7d" }

/-- A failing 401 result in 150 ms, used by the closing theorems. -/
def resultAuthFail : TestResult :=
  { scenario := sampleScenario, success := false, status := 401,
    responseTime := 150, error := none, response := none, payload := none }

/-- A passing 200 result in 900 ms, used by the closing theorems. -/
def resultOk : TestResult :=
  { scenario := sampleScenario, success := true, status := 200,
    responseTime := 900, error := none, response := none, payload := none }

/-- The key list is preserved pointwise by the generator loop. -/
theorem genFields_keys (domain : String) (timestamp : Nat)
    (sa : List StaticAttribute) (rand : Nat → ℚ) :
    ∀ (l : List (String × Value)) (i : Nat),
      (genFields domain timestamp sa rand l i).map Prod.fst = l.map Prod.fst := by
  intro l
  induction l with
  | nil => intro i; rfl
  | cons p rest ih =>
    intro i
    obtain ⟨k, v⟩ := p
    simp [genFields, ih]

/-- C1: for every original JSON payload, domain, nonce and
static-attribute list, `generateValidTestData` returns an object whose
top-level key list (hence key set) equals that of the input payload: no
key is added or removed, including for static attributes whose name
matches no existing key. -/
theorem generateValidTestData_preserves_keys (originalData : List (String × Value))
    (domain : String) (timestamp : Nat) (staticAttributes : List StaticAttribute)
    (rand : Nat → ℚ) :
    (generateValidTestData originalData domain timestamp staticAttributes rand).map
      Prod.fst = originalData.map Prod.fst :=
  genFields_keys domain timestamp staticAttributes rand originalData 0

/-- The per-key rule ignores its random draw whenever the key is neither a
phone key nor a price/amount key. -/
theorem generateFieldValue_rand_indep (domain : String) (timestamp : Nat)
    (q1 q2 : ℚ) (key : String) (v : Value)
    (hphone : containsSubstring (toLowerStr key) "phone" = false)
    (hprice : containsSubstring (toLowerStr key) "price" = false)
    (hamount : containsSubstring (toLowerStr key) "amount" = false) :
    generateFieldValue domain timestamp q1 key v =
      generateFieldValue domain timestamp q2 key v := by
  simp only [generateFieldValue, hphone, hprice, hamount, Bool.or_self,
    Bool.false_eq_true, if_false]

/-- Lookup through the generator loop does not depend on the random
stream, for keys outside the phone and price/amount rules (the counters
may even differ). -/
theorem genFields_lookup_rand_indep (domain : String) (timestamp : Nat)
    (sa : List StaticAttribute) (rand1 rand2 : Nat → ℚ) (key : String)
    (hphone : containsSubstring (toLowerStr key) "phone" = false)
    (hprice : containsSubstring (toLowerStr key) "price" = false)
    (hamount : containsSubstring (toLowerStr key) "amount" = false) :
    ∀ (l : List (String × Value)) (i j : Nat),
      List.lookup key (genFields domain timestamp sa rand1 l i) =
      List.lookup key (genFields domain timestamp sa rand2 l j) := by
  intro l
  induction l with
  | nil => intro i j; rfl
  | cons p rest ih =>
    intro i j
    obtain ⟨k, v⟩ := p
    simp only [genFields, List.lookup]
    by_cases hk : key == k
    · have hk' : key = k := by simpa using hk
      subst hk'
      simp only [hk]
      by_cases hs : isStaticField sa key
      · simp [hs]
      · simp only [hs, Bool.false_eq_true, if_false]
        exact congrArg some
          (generateFieldValue_rand_indep domain timestamp (rand1 i) (rand2 j) key v
            hphone hprice hamount)
    · simp only [hk]
      exact ih (i + 1) (j + 1)

/-- C2 (amended): with the same payload, domain, nonce and static
attributes, the generated value of every key whose lower-cased name
contains none of "phone", "price", "amount" is independent of the ambient
randomness; the phone rule (random leading digit) and the price/amount
rule (entirely random value) are the non-deterministic exceptions. -/
theorem generateValidTestData_deterministic (originalData : List (String × Value))
    (domain : String) (timestamp : Nat) (staticAttributes : List StaticAttribute)
    (rand1 rand2 : Nat → ℚ) (key : String)
    (hphone : containsSubstring (toLowerStr key) "phone" = false)
    (hprice : containsSubstring (toLowerStr key) "price" = false)
    (hamount : containsSubstring (toLowerStr key) "amount" = false) :
    List.lookup key (generateValidTestData originalData domain timestamp
      staticAttributes rand1) =
    List.lookup key (generateValidTestData originalData domain timestamp
      staticAttributes rand2) :=
  genFields_lookup_rand_indep domain timestamp staticAttributes rand1 rand2 key
    hphone hprice hamount originalData 0 0

/-- C2 witness: the amended determinism theorem applied to a concrete
email field under two different random sources. -/
theorem generateValidTestData_deterministic_witness :
    List.lookup "email" (generateValidTestData [("email", Value.str "a@b.c")]
      "generic" 5 [] (fun _ => 0)) =
    List.lookup "email" (generateValidTestData [("email", Value.str "a@b.c")]
      "generic" 5 [] (fun _ => 1/2)) :=
  generateValidTestData_deterministic [("email", Value.str "a@b.c")] "generic" 5 []
    (fun _ => 0) (fun _ => 1/2) "email" (by decide) (by decide) (by decide)

/-- C2 counterexample: a key named "amount" is not a phone key, yet two
runs with the same nonce and different random draws disagree on its value,
so the phone leading digit is not the only non-deterministic output. -/
theorem generateValidTestData_random_amount_counterexample :
    containsSubstring (toLowerStr "amount") "phone" = false ∧
    List.lookup "amount" (generateValidTestData [("amount", Value.num 0)]
      "generic" 0 [] (fun _ => 0)) ≠
    List.lookup "amount" (generateValidTestData [("amount", Value.num 0)]
      "generic" 0 [] (fun _ => 1/2)) := by
  refine ⟨by decide, ?_⟩
  have h1 : List.lookup "amount" (generateValidTestData [("amount", Value.num 0)]
      "generic" 0 [] (fun _ => 0)) =
      some (Value.num (roundTo2 ((0 : ℚ) * 1000 + 10))) := rfl
  have h2 : List.lookup "amount" (generateValidTestData [("amount", Value.num 0)]
      "generic" 0 [] (fun _ => 1/2)) =
      some (Value.num (roundTo2 ((1/2 : ℚ) * 1000 + 10))) := rfl
  have e1 : roundTo2 ((0 : ℚ) * 1000 + 10) = 10 := by
    norm_num [roundTo2, jsRound]
  have e2 : roundTo2 ((1/2 : ℚ) * 1000 + 10) = 510 := by
    norm_num [roundTo2, jsRound]
  rw [h1, h2, e1, e2]
  intro h
  simp only [Option.some.injEq, Value.num.injEq] at h
  norm_num at h

/-- The executed result always carries its own scenario, whatever the
transport did. -/
theorem executeTest_scenario (env : ExecEnv) (s : TestScenario) :
    (executeTest env s).scenario = s := by
  simp only [executeTest]
  split
  · split <;> rfl
  · rfl

/-- C3 counterexample: the string "-X DELETE" has no `curl` invocation
keyword (the URL regex finds nothing), yet the parser does not return the
empty descriptor: the method flag is still honoured. -/
theorem parseCurl_missing_keyword_counterexample :
    findUrl (cleanCurlChars "-X DELETE".toList) = none ∧
    parseCurlCommand "-X DELETE" ≠ emptyParsedCurl ∧
    (parseCurlCommand "-X DELETE").method = "DELETE" :=
  ⟨by decide, by decide, by decide⟩

/-- C3 (amended): the parser is a total function (it never raises), and a
request string on which the URL regex fails yields an empty `url`; method,
headers and body are extracted independently from their own flags, so the
descriptor is the empty one exactly when those are absent as well. -/
theorem parseCurl_missing_url_amended (s : String)
    (hurl : findUrl (cleanCurlChars s.toList) = none) :
    (parseCurlCommand s).url = "" ∧
    (findMethod (cleanCurlChars s.toList) = none →
      (containsList (cleanCurlChars s.toList) "--data-raw".toList ||
        containsList (cleanCurlChars s.toList) "--data".toList ||
        containsList (cleanCurlChars s.toList) "-d ".toList) = false →
      headerCaptures (cleanCurlChars s.toList).length (cleanCurlChars s.toList) = [] →
      findBody (cleanCurlChars s.toList) = none →
      parseCurlCommand s = emptyParsedCurl) := by
  constructor
  · simp only [parseCurlCommand]
    rw [hurl]
    rfl
  · intro hm hd hh hb
    simp only [parseCurlCommand]
    rw [hurl, hm, hd, hh, hb]
    rfl

/-- C3 witness: a keywordless, flagless string degrades to the empty
descriptor. -/
theorem parseCurl_missing_url_witness : parseCurlCommand "hello" = emptyParsedCurl :=
  (parseCurl_missing_url_amended "hello" (by decide)).2 (by decide) (by decide)
    (by decide) (by decide)

/-- C4: for a non-empty accepted batch, the entrypoint returns the report;
its total equals the number of results, which equals the number of
scenarios; passed and failed partition the total; the average response
time is the rounded mean over all results (failures included); and the
results are the scenario-wise map of the executor, hence in input order. -/
theorem runTests_report_consistency (env : ExecEnv) (scenarios : List TestScenario)
    (h : scenarios ≠ []) :
    runTestsPost env (some scenarios) = .report (buildReport env scenarios) ∧
    (buildReport env scenarios).summary.total =
      (buildReport env scenarios).results.length ∧
    (buildReport env scenarios).results.length = scenarios.length ∧
    (buildReport env scenarios).summary.passed +
      (buildReport env scenarios).summary.failed =
      (buildReport env scenarios).summary.total ∧
    (buildReport env scenarios).summary.avgResponseTime =
      some (jsRound
        ((((buildReport env scenarios).results.map (fun r => r.responseTime)).sum : ℚ) /
          (((buildReport env scenarios).results.length : ℚ)))) ∧
    (buildReport env scenarios).results.map (fun r => r.scenario) = scenarios := by
  have hne : scenarios.length ≠ 0 := fun hz => h (List.length_eq_zero.mp hz)
  refine ⟨rfl, rfl, by simp [buildReport], ?_, ?_, ?_⟩
  · have hle := List.length_filter_le (fun r => r.success)
      (scenarios.map (executeTest env))
    simp only [buildReport]
    omega
  · simp [buildReport, h]
  · simp only [buildReport, List.map_map]
    have hx : ∀ x ∈ scenarios, ((fun r => r.scenario) ∘ executeTest env) x = id x :=
      fun x _ => executeTest_scenario env x
    rw [List.map_congr_left hx, List.map_id]

/-- C4 witness: the consistency theorem at a concrete one-element batch. -/
theorem runTests_report_consistency_witness :
    runTestsPost envDown (some [sampleScenario]) =
      .report (buildReport envDown [sampleScenario]) ∧
    (buildReport envDown [sampleScenario]).summary.total =
      (buildReport envDown [sampleScenario]).results.length ∧
    (buildReport envDown [sampleScenario]).results.length =
      [sampleScenario].length ∧
    (buildReport envDown [sampleScenario]).summary.passed +
      (buildReport envDown [sampleScenario]).summary.failed =
      (buildReport envDown [sampleScenario]).summary.total ∧
    (buildReport envDown [sampleScenario]).summary.avgResponseTime =
      some (jsRound
        ((((buildReport envDown [sampleScenario]).results.map
          (fun r => r.responseTime)).sum : ℚ) /
          (((buildReport envDown [sampleScenario]).results.length : ℚ)))) ∧
    (buildReport envDown [sampleScenario]).results.map (fun r => r.scenario) =
      [sampleScenario] :=
  runTests_report_consistency envDown [sampleScenario] (by simp)

/-- C5: a rejected URL or a failed fetch yields status 0, success false
and a populated error, and the results list is the index-wise map of the
executor over the scenarios, so one failure cannot displace or suppress a
sibling's result. -/
theorem executeTest_transport_failure (env : ExecEnv) (s : TestScenario)
    (h : env.urlOk s.url = false ∨
      ∃ msg, env.fetch s.url (buildRequestOptions s) = .failure msg) :
    ((executeTest env s).status = 0 ∧ (executeTest env s).success = false ∧
      (executeTest env s).error.isSome = true) ∧
    ∀ (scenarios : List TestScenario) (i : Nat),
      (buildReport env scenarios).results.get? i =
        (scenarios.get? i).map (executeTest env) := by
  constructor
  · rcases h with h | ⟨msg, hmsg⟩
    · simp [executeTest, h]
    · by_cases hu : env.urlOk s.url
      · simp [executeTest, hu, hmsg]
      · simp [executeTest, hu]
  · intro scenarios i
    simp [buildReport, List.get?_map]

/-- C5 witness: the transport-failure theorem at a malformed-URL scenario,
with the sibling-preservation clause instantiated at index 1 of a
two-element batch. -/
theorem executeTest_transport_failure_witness :
    ((executeTest envDown sampleScenario).status = 0 ∧
      (executeTest envDown sampleScenario).success = false ∧
      (executeTest envDown sampleScenario).error.isSome = true) ∧
    (buildReport envDown [sampleScenario, sampleScenario]).results.get? 1 =
      (([sampleScenario, sampleScenario] : List TestScenario).get? 1).map
        (executeTest envDown) := by
  have h := executeTest_transport_failure envDown sampleScenario (Or.inl rfl)
  exact ⟨h.1, h.2 [sampleScenario, sampleScenario] 1⟩

/-- C6 counterexample: an empty scenario array passes the input check
(`!scenarios || !Array.isArray(scenarios)` is false on `[]`) and yields a
report with total 0, not an input-validation error. -/
theorem emptyBatch_accepted_counterexample :
    isPostError (runTestsPost envDown (some [])) = false ∧
    runTestsPost envDown (some []) = .report (buildReport envDown []) ∧
    (buildReport envDown []).summary.total = 0 :=
  ⟨rfl, rfl, rfl⟩

/-- C6 (amended): the entrypoint answers with an error exactly when the
`scenarios` field is missing, falsy or not an array; an empty array is
processed into a degenerate report whose total is 0 and whose average
response time is the JS `NaN`. -/
theorem runTestsPost_rejects_iff_missing (env : ExecEnv)
    (input : Option (List TestScenario)) :
    (isPostError (runTestsPost env input) = true ↔ input = none) ∧
    runTestsPost env none = .jsonError "Scénarios requis" 400 ∧
    (buildReport env []).summary.total = 0 ∧
    (buildReport env []).summary.avgResponseTime = none := by
  refine ⟨?_, rfl, rfl, rfl⟩
  cases input <;> simp [runTestsPost, isPostError]

/-- C7: a body parsing as a JSON object with both an email-like and a
password-like key (case-insensitive substring match) forces the domain to
"auth" and adds 2 to the URL-derived confidence, regardless of the URL;
this is the first arm of the else-if override chain, so when it fires no
later override is consulted. -/
theorem classifier_email_password_override (pc : ParsedCurl) (b : String)
    (fields : List (String × Value))
    (hbody : pc.body = some b)
    (hparse : jsonParse b = some (Value.obj fields))
    (hemail : fieldHasSub (fields.map Prod.fst) "email" = true)
    (hpassword : fieldHasSub (fields.map Prod.fst) "password" = true) :
    (analyzeApiContext pc).domain = "auth" ∧
    (analyzeApiContext pc).confidence = (scoreUrl pc.url).2 + 2 := by
  simp [analyzeApiContext, hbody, hparse, objFields, hemail, hpassword]

/-- C7 witness: the override theorem at a request whose URL scores as
`product` (confidence 1) but whose body has email and password fields. -/
theorem classifier_email_password_witness :
    (analyzeApiContext pcAuth).domain = "auth" ∧
    (analyzeApiContext pcAuth).confidence = 3 := by
  obtain ⟨h1, h2⟩ := classifier_email_password_override pcAuth
    "\x7b\"email\":\"a\",\"password\":\"b\"\x7d"
    [("email", Value.str "a"), ("password", Value.str "b")]
    rfl rfl (by decide) (by decide)
  refine ⟨h1, ?_⟩
  rw [h2]
  decide

/-- C9: the deterministic fallback analysis rates each result by the fixed
response-time thresholds, flags the authentication security issue exactly
when some result has status 401, and clamps the rounded tenth of the
success rate into the interval [1, 10] as the reliability score (the
summary total must be positive; a zero total makes the JS computation
NaN). -/
theorem fallbackAnalysis_props (results : List TestResult)
    (summary : AnalyzeSummary) (h : 0 < summary.total) :
    (fallbackAnalysis results summary).scenarioAnalyses.map
      (fun a => a.performanceRating) =
      results.map (fun r =>
        if r.responseTime < 200 then "excellent"
        else if r.responseTime < 500 then "good"
        else if r.responseTime < 1000 then "average" else "poor") ∧
    ((fallbackAnalysis results summary).securityIssues ≠ [] ↔
      ∃ r ∈ results, r.status = 401) ∧
    (fallbackAnalysis results summary).reliabilityScore =
      some (max 1 (min 10
        (jsRound ((summary.passed : ℚ) / (summary.total : ℚ) * 100 / 10)))) := by
  refine ⟨?_, ?_, ?_⟩
  · simp [fallbackAnalysis, performanceRating]
  · have hiff : results.any (fun r => r.status == 401) = true ↔
        ∃ r ∈ results, r.status = 401 := by
      simp [List.any_eq_true]
    by_cases hany : results.any (fun r => r.status == 401) = true
    · simp [fallbackAnalysis, fallbackSecurityIssues, hany, hiff.mp hany]
    · simp only [fallbackAnalysis, fallbackSecurityIssues, hany,
        Bool.false_eq_true, if_false, ne_eq, not_true_eq_false]
      constructor
      · intro hfalse
        exact hfalse.elim
      · rintro ⟨r, hr, h401⟩
        exact absurd (hiff.mpr ⟨r, hr, h401⟩) hany
  · have hz : summary.total ≠ 0 := by omega
    simp [fallbackAnalysis, fallbackReliabilityScore, successRateOf, hz]

/-- C9 witness: the fallback-analysis theorem at a concrete pair of
results (a 401 failure in 150 ms and a success in 900 ms) with a
one-out-of-two summary. -/
theorem fallbackAnalysis_props_witness :
    (fallbackAnalysis [resultAuthFail, resultOk]
      ⟨2, 1, 1, 525⟩).scenarioAnalyses.map (fun a => a.performanceRating) =
      ["excellent", "average"] ∧
    (fallbackAnalysis [resultAuthFail, resultOk] ⟨2, 1, 1, 525⟩).securityIssues ≠ [] ∧
    (fallbackAnalysis [resultAuthFail, resultOk] ⟨2, 1, 1, 525⟩).reliabilityScore =
      some 5 := by
  obtain ⟨h1, h2, h3⟩ := fallbackAnalysis_props [resultAuthFail, resultOk]
    ⟨2, 1, 1, 525⟩ (by decide)
  refine ⟨?_, ?_, ?_⟩
  · rw [h1]; decide
  · exact h2.mpr ⟨resultAuthFail, by simp, rfl⟩
  · rw [h3]
    norm_num
    have hj5 : jsRound (5 : ℚ) = 5 := by norm_num [jsRound]
    rw [hj5]
    decide

/-- Folding the static-attribute pass over a key yields the last matching
attribute's value, or the untouched original. -/
theorem staticValue_eq_staticLookup (sa : List StaticAttribute) (k : String)
    (v : Value) :
    staticValue sa k v =
      (match staticLookup sa k with
        | some val => Value.str val
        | none => v) := by
  unfold staticValue staticLookup
  suffices h : ∀ (acc : Option String),
      sa.foldl (fun a attr => if attr.name == k then Value.str attr.value else a)
        (match acc with | some s => Value.str s | none => v) =
      (match sa.foldl (fun a attr => if attr.name == k then some attr.value else a)
          acc with
        | some val => Value.str val
        | none => v) from h none
  induction sa with
  | nil => intro acc; rfl
  | cons a rest ih =>
    intro acc
    simp only [List.foldl]
    by_cases h : a.name == k
    · simp only [h, if_true]
      exact ih (some a.value)
    · simp only [h, Bool.false_eq_true, if_false]
      exact ih acc

/-- The static-lookup fold never loses a seeded value. -/
theorem staticLookup_fold_some (k : String) :
    ∀ (sa : List StaticAttribute) (val : String),
      sa.foldl (fun a attr => if attr.name == k then some attr.value else a)
        (some val) ≠ none := by
  intro sa
  induction sa with
  | nil => intro val h; cases h
  | cons a rest ih =>
    intro val
    simp only [List.foldl]
    by_cases h : a.name == k
    · simp only [h, if_true]
      exact ih a.value
    · simp only [h, Bool.false_eq_true, if_false]
      exact ih val

/-- The strict-equality pinning test agrees with the lookup fold. -/
theorem isStaticField_iff_staticLookup (sa : List StaticAttribute) (k : String) :
    isStaticField sa k = true ↔ staticLookup sa k ≠ none := by
  unfold isStaticField staticLookup
  induction sa with
  | nil => simp
  | cons a rest ih =>
    simp only [List.any_cons, List.foldl]
    by_cases h : a.name == k
    · simp only [h, if_true, Bool.true_or, true_iff]
      exact staticLookup_fold_some k rest a.value
    · simp only [h, Bool.false_eq_true, if_false, Bool.false_or]
      exact ih

/-- Lookup of a key through the generator loop: the first binding of the
key is rewritten to its pinned value or to the per-key rule applied at
some draw of the stream. -/
theorem genFields_lookup_char (domain : String) (timestamp : Nat)
    (sa : List StaticAttribute) (rand : Nat → ℚ) (key : String) (v : Value) :
    ∀ (l : List (String × Value)) (i : Nat), List.lookup key l = some v →
      ∃ j, List.lookup key (genFields domain timestamp sa rand l i) =
        some (if isStaticField sa key = true then staticValue sa key v
          else generateFieldValue domain timestamp (rand j) key v) := by
  intro l
  induction l with
  | nil => intro i h; cases h
  | cons p rest ih =>
    intro i h
    obtain ⟨k, w⟩ := p
    simp only [List.lookup] at h
    simp only [genFields, List.lookup]
    by_cases hk : key == k
    · have hk' : key = k := by simpa using hk
      subst hk'
      simp only [hk] at h ⊢
      obtain rfl : w = v := by simpa using h
      exact ⟨i, rfl⟩
    · simp only [hk] at h ⊢
      exact ih (i + 1) h

/-- C10: static pinning matches attribute names to payload keys by
case-sensitive strict equality.  A key with an exact match takes the
matching attribute's value verbatim and bypasses every generation rule; a
key with no exact match — even one differing from an attribute's name only
in letter case — is regenerated by the case-insensitive synthetic rules. -/
theorem static_pinning_exact_match (originalData : List (String × Value))
    (domain : String) (timestamp : Nat) (sa : List StaticAttribute)
    (rand : Nat → ℚ) (key : String) (v : Value)
    (hv : List.lookup key originalData = some v) :
    (∀ val, staticLookup sa key = some val →
      List.lookup key
        (generateValidTestData originalData domain timestamp sa rand) =
        some (Value.str val)) ∧
    (staticLookup sa key = none →
      ∃ q, List.lookup key
        (generateValidTestData originalData domain timestamp sa rand) =
        some (generateFieldValue domain timestamp q key v)) := by
  obtain ⟨j, hj⟩ :=
    genFields_lookup_char domain timestamp sa rand key v originalData 0 hv
  constructor
  · intro val hval
    have hsf : isStaticField sa key = true :=
      (isStaticField_iff_staticLookup sa key).mpr (by simp [hval])
    rw [generateValidTestData, hj, if_pos hsf, staticValue_eq_staticLookup, hval]
  · intro hnone
    have hsf : isStaticField sa key = false := by
      by_cases hb : isStaticField sa key = true
      · exact absurd hnone ((isStaticField_iff_staticLookup sa key).mp hb)
      · simpa using hb
    refine ⟨rand j, ?_⟩
    rw [generateValidTestData, hj, hsf]
    simp

/-- C10 witness: an exact-name attribute pins the email field verbatim,
while an attribute differing only in case leaves it to the (case-
insensitive) synthetic email rule. -/
theorem static_pinning_exact_match_witness :
    List.lookup "email" (generateValidTestData [("email", Value.str "a@b.c")]
      "generic" 5 [⟨"email", "pinned@x.com"⟩] (fun _ => 0)) =
      some (Value.str "pinned@x.com") ∧
    List.lookup "email" (generateValidTestData [("email", Value.str "a@b.c")]
      "generic" 5 [⟨"Email", "pinned@x.com"⟩] (fun _ => 0)) =
      some (Value.str "thomas.laurent.5@example.com") := by
  constructor
  · exact (static_pinning_exact_match [("email", Value.str "a@b.c")] "generic" 5
      [⟨"email", "pinned@x.com"⟩] (fun _ => 0) "email" (Value.str "a@b.c")
      rfl).1 "pinned@x.com" (by decide)
  · obtain ⟨q, hq⟩ := (static_pinning_exact_match [("email", Value.str "a@b.c")]
      "generic" 5 [⟨"Email", "pinned@x.com"⟩] (fun _ => 0) "email"
      (Value.str "a@b.c") rfl).2 (by decide)
    rw [hq]
    rfl

/-- Rewriting one key of an association list (the update branch of
`setField`) leaves lookups of every other key unchanged. -/
theorem lookup_map_setField (k : String) (v : Value) (k' : String)
    (h : ¬ k' = k) :
    ∀ l : List (String × Value),
      List.lookup k' (l.map (fun p => if p.1 == k then (p.1, v) else p)) =
      List.lookup k' l := by
  intro l
  induction l with
  | nil => rfl
  | cons p rest ih =>
    obtain ⟨k1, v1⟩ := p
    by_cases h1 : (k1 == k) = true
    · have hmap : ((k1, v1) :: rest).map (fun p => if p.1 == k then (p.1, v) else p) =
          (k1, v) :: rest.map (fun p => if p.1 == k then (p.1, v) else p) := by
        simp only [List.map_cons, h1, if_true]
      rw [hmap]
      have hk1 : k1 = k := by simpa using h1
      have h2 : (k' == k1) = false := beq_eq_false_iff_ne.mpr (hk1 ▸ h)
      simp only [List.lookup, h2]
      exact ih
    · have h1' : (k1 == k) = false := Bool.eq_false_iff.mpr h1
      have hmap : ((k1, v1) :: rest).map (fun p => if p.1 == k then (p.1, v) else p) =
          (k1, v1) :: rest.map (fun p => if p.1 == k then (p.1, v) else p) := by
        simp only [List.map_cons, h1', Bool.false_eq_true, if_false]
      rw [hmap]
      simp only [List.lookup]
      cases hb : (k' == k1) with
      | true => rfl
      | false => exact ih

/-- Appending a binding for a different key (the insert branch of
`setField`) leaves lookups of every other key unchanged. -/
theorem lookup_append_single (k : String) (v : Value) (k' : String)
    (h : ¬ k' = k) :
    ∀ l : List (String × Value),
      List.lookup k' (l ++ [(k, v)]) = List.lookup k' l := by
  intro l
  induction l with
  | nil =>
    have h2 : (k' == k) = false := beq_eq_false_iff_ne.mpr h
    simp [List.lookup, h2]
  | cons p rest ih =>
    obtain ⟨k1, v1⟩ := p
    by_cases hp : k' = k1
    · have h2 : (k' == k1) = true := by simp [hp]
      simp [List.lookup, h2]
    · have h2 : (k' == k1) = false := beq_eq_false_iff_ne.mpr hp
      simp [List.lookup, h2, ih]

/-- `setField` changes no binding other than the targeted key. -/
theorem setField_lookup_ne (l : List (String × Value)) (k : String) (v : Value)
    (k' : String) (h : ¬ k' = k) :
    List.lookup k' (setField l k v) = List.lookup k' l := by
  unfold setField
  split
  · exact lookup_map_setField k v k' h l
  · exact lookup_append_single k v k' h l

/-- Every scenario the per-field loop emits expects status 400. -/
theorem perFieldGo_mem_expectedStatus (bodyObj : List (String × Value))
    (domain method url : String) (headers : List (String × String))
    (sa : List StaticAttribute) (timestamp : Nat) (rands : Nat → Nat → ℚ) :
    ∀ (l : List (String × Value)) (i : Nat) (s : TestScenario),
      s ∈ perFieldGo bodyObj domain method url headers sa timestamp rands l i →
      s.expectedStatus = some 400 := by
  intro l
  induction l with
  | nil =>
    intro i s hs
    simp [perFieldGo] at hs
  | cons p rest ih =>
    intro i s hs
    obtain ⟨f, v⟩ := p
    simp only [perFieldGo] at hs
    by_cases h4 : i < 4
    · rw [if_pos h4] at hs
      by_cases hst : isStaticField sa f = true
      · rw [if_pos hst] at hs
        simp only [List.nil_append] at hs
        exact ih (i + 1) s hs
      · rw [if_neg hst] at hs
        simp only [List.singleton_append, List.mem_cons] at hs
        rcases hs with rfl | hs
        · rfl
        · exact ih (i + 1) s hs
    · rw [if_neg h4] at hs
      exact ih (i + 1) s hs

/-- Length of the per-field loop output when no field is pinned. -/
theorem perFieldGo_length (bodyObj : List (String × Value))
    (domain method url : String) (headers : List (String × String))
    (sa : List StaticAttribute) (timestamp : Nat) (rands : Nat → Nat → ℚ) :
    ∀ (l : List (String × Value)) (i : Nat),
      (∀ p ∈ l, isStaticField sa p.1 = false) →
      (perFieldGo bodyObj domain method url headers sa timestamp rands l i).length =
        min (4 - i) l.length := by
  intro l
  induction l with
  | nil => intro i _; simp [perFieldGo]
  | cons p rest ih =>
    intro i hns
    obtain ⟨f, v⟩ := p
    have hf : isStaticField sa f = false := hns (f, v) (List.mem_cons_self _ _)
    have hrest : ∀ q ∈ rest, isStaticField sa q.1 = false :=
      fun q hq => hns q (List.mem_cons_of_mem _ hq)
    simp only [perFieldGo]
    by_cases h4 : i < 4
    · rw [if_pos h4, hf]
      simp only [Bool.false_eq_true, if_false, List.singleton_append,
        List.length_cons, ih (i + 1) hrest]
      omega
    · rw [if_neg h4, ih (i + 1) hrest]
      simp only [List.length_cons]
      omega

/-- Index-wise characterization of the per-field loop output when no field
is pinned: the j-th scenario targets the j-th field with nonce offset
`i + j`. -/
theorem perFieldGo_get? (bodyObj : List (String × Value))
    (domain method url : String) (headers : List (String × String))
    (sa : List StaticAttribute) (timestamp : Nat) (rands : Nat → Nat → ℚ) :
    ∀ (l : List (String × Value)) (i j : Nat),
      (∀ p ∈ l, isStaticField sa p.1 = false) → i + j < 4 →
      (perFieldGo bodyObj domain method url headers sa timestamp rands l i).get? j =
        (l.get? j).map (fun p => mkInvalidFieldScenario bodyObj domain method url
          headers sa timestamp rands (i + j) p.1 p.2) := by
  intro l
  induction l with
  | nil => intro i j _ _; simp [perFieldGo]
  | cons p rest ih =>
    intro i j hns hij
    obtain ⟨f, v⟩ := p
    have hf : isStaticField sa f = false := hns (f, v) (List.mem_cons_self _ _)
    have hrest : ∀ q ∈ rest, isStaticField sa q.1 = false :=
      fun q hq => hns q (List.mem_cons_of_mem _ hq)
    have h4 : i < 4 := by omega
    simp only [perFieldGo, if_pos h4, hf, Bool.false_eq_true, if_false,
      List.singleton_append]
    cases j with
    | zero => simp
    | succ j' =>
      simp only [List.get?]
      rw [ih (i + 1) j' hrest (by omega)]
      have harith : i + 1 + j' = i + (j' + 1) := by omega
      rw [harith]

/-- C8 (amended): for a parsed JSON body with at least four fields, none
pinned by a static attribute, the fallback builder emits exactly four
per-field-invalid scenarios, in field order and contiguously inside the
battery, each with expectedStatus 400; the i-th one's body serializes the
fresh valid baseline for nonce offset i with only the targeted field
overwritten by its invalid replacement, so it agrees with that baseline on
every non-targeted field.  (The targeted field itself can coincide with
the baseline in degenerate cases, so "differs in exactly one field" does
not hold; see the counterexample.) -/
theorem fallback_per_field_invalid (bodyObj : List (String × Value))
    (domain method url : String) (headers : List (String × String))
    (sa : List StaticAttribute) (timestamp : Nat) (rands : Nat → Nat → ℚ)
    (h4 : 4 ≤ bodyObj.length)
    (hns : ∀ p ∈ bodyObj, isStaticField sa p.1 = false) :
    (perFieldInvalidScenarios bodyObj domain method url headers sa timestamp
      rands).length = 4 ∧
    (∀ s ∈ perFieldInvalidScenarios bodyObj domain method url headers sa timestamp
      rands, s.expectedStatus = some 400) ∧
    (∀ i, i < 4 →
      (perFieldInvalidScenarios bodyObj domain method url headers sa timestamp
        rands).get? i =
      (bodyObj.get? i).map (fun p => mkInvalidFieldScenario bodyObj domain method
        url headers sa timestamp rands i p.1 p.2)) ∧
    (∀ i p, bodyObj.get? i = some p →
      (mkInvalidFieldScenario bodyObj domain method url headers sa timestamp rands
        i p.1 p.2).body =
        some (toJsonString (Value.obj (setField
          (generateValidTestData bodyObj domain (timestamp + i) sa (rands (1 + i)))
          p.1 (generateInvalidValue p.1 p.2)))) ∧
      ∀ k, ¬ k = p.1 →
        List.lookup k (setField
          (generateValidTestData bodyObj domain (timestamp + i) sa (rands (1 + i)))
          p.1 (generateInvalidValue p.1 p.2)) =
        List.lookup k (generateValidTestData bodyObj domain (timestamp + i) sa
          (rands (1 + i)))) ∧
    (∀ (parsedCurl : ParsedCurl) (ctx : ApiContext) (b : String),
      parsedCurl.body = some b → jsonParse b = some (Value.obj bodyObj) →
      ctx.domain = domain → parsedCurl.method = method → parsedCurl.url = url →
      parsedCurl.headers = headers →
      List.Sublist (perFieldInvalidScenarios bodyObj domain method url headers sa
        timestamp rands)
        (generateComprehensiveFallback parsedCurl ctx sa timestamp rands).scenarios) := by
  refine ⟨?_, ?_, ?_, ?_, ?_⟩
  · rw [perFieldInvalidScenarios,
      perFieldGo_length bodyObj domain method url headers sa timestamp rands bodyObj
        0 hns]
    omega
  · intro s hs
    exact perFieldGo_mem_expectedStatus bodyObj domain method url headers sa
      timestamp rands bodyObj 0 s hs
  · intro i hi
    rw [perFieldInvalidScenarios]
    simpa using perFieldGo_get? bodyObj domain method url headers sa timestamp rands
      bodyObj 0 i hns (by omega)
  · intro i p _
    exact ⟨rfl, fun k hk => setField_lookup_ne _ _ _ k hk⟩
  · intro parsedCurl ctx b hbody hparse hdom hmethod hurl hheaders
    subst hdom
    subst hmethod
    subst hurl
    subst hheaders
    simp only [generateComprehensiveFallback, hbody, hparse, objFields,
      List.cons_append, List.append_assoc]
    exact (List.sublist_append_left _ _).cons _

/-- C8 witness: the per-field theorem at a concrete four-field payload
with no static attributes, including its placement inside the full
fallback battery. -/
theorem fallback_per_field_invalid_witness :
    (perFieldInvalidScenarios fourFieldPayload "generic" "POST" "https://x.com/a"
      [] [] 0 zeroRands).length = 4 ∧
    List.Sublist (perFieldInvalidScenarios fourFieldPayload "generic" "POST"
      "https://x.com/a" [] [] 0 zeroRands)
      (generateComprehensiveFallback
        ⟨"https://x.com/a", "POST", [],
          some "\x7b\"alpha\":\"a\",\"beta\":\"b\",\"gamma\":\"c\",\"delta\":\"d\"\x7d"⟩
        ⟨"generic", 0, "a", "unknown", [], "ctx"⟩ [] 0 zeroRands).scenarios := by
  have h := fallback_per_field_invalid fourFieldPayload "generic" "POST"
    "https://x.com/a" [] [] 0 zeroRands (by decide) (by decide)
  exact ⟨h.1, h.2.2.2.2 _ _ _ rfl rfl rfl rfl rfl rfl⟩

/-- C8 counterexample: on a payload whose first field already holds the
numeric invalid sentinel -999999, the first per-field-invalid scenario's
body equals the fresh valid baseline byte for byte — it differs from the
baseline in zero fields, not in exactly the targeted one. -/
theorem per_field_isolation_counterexample :
    ((perFieldInvalidScenarios collidingPayload "generic" "POST" "https://x.com/a"
      [] [] 0 zeroRands).get? 0).map (fun s => s.body) =
      some (some (toJsonString (Value.obj (generateValidTestData collidingPayload
        "generic" 0 [] (zeroRands 1))))) ∧
    List.lookup "a" (setField (generateValidTestData collidingPayload "generic" 0
      [] (zeroRands 1)) "a" (generateInvalidValue "a" (Value.num (-999999)))) =
    List.lookup "a" (generateValidTestData collidingPayload "generic" 0 []
      (zeroRands 1)) :=
  ⟨rfl, rfl⟩
